import Mathlib

/-!
Shallow embedding of `alphabet_recogniser/tensorboard_utils.py`.

Python integers are modelled as `Nat` (epochs come from `range(epoch_num)`,
frequencies and sizes are non-negative command-line integers), numpy float
values as `ℚ` together with an explicit `NpFloat` type where `nan`/`inf`
can arise, and fallible operations (a Python exception) as `Option`.
The filesystem touched by `save_model` is an association list from paths to
stored models.
-/

namespace AlphabetRecogniser

/-- Model object as seen by `tensorboard_utils`: only `num_classes` is read;
`payload` stands for the serialized weights so that distinct models are
distinguishable in the filesystem model. -/
structure Net where
  num_classes : Nat
  payload : Nat
deriving DecidableEq

/-- Fields of the configuration singleton (`Config.get_instance()`) that
`tensorboard_utils.py` reads: `args.m_save_path`, `log_pref`,
`train_size_per_class`, `test_size_per_class`, `epoch_num`, and the three
chart frequencies `args.t_cm_freq`, `args.t_precision_bar_freq`,
`args.t_roc_auc_freq`. -/
structure Config where
  m_save_path : Option String
  log_pref : String
  train_size_per_class : Option Nat
  test_size_per_class : Option Nat
  epoch_num : Nat
  t_cm_freq : Nat
  t_precision_bar_freq : Nat
  t_roc_auc_freq : Nat
deriving DecidableEq

/-- Embedding of the conditional expression
`x if x is not None else 'All'` used twice inside the f-string of
`save_model` (lines 41-42). -/
def sizeField : Option Nat → String
  | some n => toString n
  | none => "All"

/-- Embedding of the f-string of `save_model` (lines 37-43): the checkpoint
file name. `acc` is passed already rendered to a string, as the f-string
renders whatever value the caller supplies. -/
def checkpointFileName (config : Config) (net : Net) (acc : String) (epoch : Nat) : String :=
  config.log_pref
    ++ "_acc[" ++ acc ++ "]"
    ++ "_e[" ++ toString epoch ++ "]"
    ++ "_c[" ++ toString net.num_classes ++ "]"
    ++ "_tr_s[" ++ sizeField config.train_size_per_class ++ "]"
    ++ "_t_s[" ++ sizeField config.test_size_per_class ++ "]"
    ++ ".model"

/-- Modelled from the spec: the file-name shape
`<pref>_acc[<v>]_e[<epoch>]_c[<n>]_tr_s[<n|All>]_t_s[<n|All>].model` stated
in the spec's section 6, written independently of the source f-string for
the refinement claim C3. -/
def specCheckpointFileName (pref accStr : String) (epoch numClasses : Nat)
    (trainSize testSize : Option Nat) : String :=
  pref ++ "_acc[" ++ accStr ++ "]_e[" ++ toString epoch ++ "]_c["
    ++ toString numClasses ++ "]_tr_s["
    ++ (match trainSize with
        | some n => toString n
        | none => "All")
    ++ "]_t_s["
    ++ (match testSize with
        | some n => toString n
        | none => "All")
    ++ "].model"

/-- Filesystem model: paths mapped to stored models, newest entry first. -/
abbrev FileSystem := List (String × Net)

/-- Embedding of `os.path.exists` over the filesystem model. -/
def pathExists (fs : FileSystem) (p : String) : Bool :=
  (fs.lookup p).isSome

/-- Embedding of `os.path.join(dir, name)` for a directory path without a
trailing separator. -/
def pathJoin (dir name : String) : String :=
  dir ++ "/" ++ name

/-- Embedding of `save_model` (lines 30-46). Returns the filesystem after
the call: an early return when `m_save_path is None`, otherwise
`torch.save` writes the net at the computed path unless a file exists
there. -/
def save_model (config : Config) (net : Net) (acc : String) (epoch : Nat)
    (fs : FileSystem) : FileSystem :=
  match config.m_save_path with
  | none => fs
  | some dir =>
    let save_path := pathJoin dir (checkpointFileName config net acc epoch)
    if pathExists fs save_path then fs
    else (save_path, net) :: fs

/-- Embedding of the inner predicate `can_log` of `add_logs_to_tensorboard`
(lines 73-74). Python raises `ZeroDivisionError` on `epoch % 0`, modelled
as `none`; otherwise the boolean
`(epoch % frequence == 0 and epoch != 0) or
 (epoch % frequence != 0 and config.epoch_num - 1 == epoch)`. -/
def can_log (epoch epoch_num frequence : Nat) : Option Bool :=
  if frequence = 0 then none
  else some (decide ((epoch % frequence = 0 ∧ epoch ≠ 0)
                   ∨ (epoch % frequence ≠ 0 ∧ epoch_num - 1 = epoch)))

/-- Which renderers a call of `add_logs_to_tensorboard` invoked. -/
structure DispatchResult where
  cm_logged : Bool
  bars_logged : Bool
  roc_logged : Bool
deriving DecidableEq

/-- Embedding of the dispatch decisions of `add_logs_to_tensorboard`
(lines 76-83): one `can_log` test per chart type, in source order; a raised
`ZeroDivisionError` anywhere aborts the whole dispatch (`none`). -/
def add_logs_to_tensorboard (config : Config) (epoch : Nat) : Option DispatchResult := do
  let cm ← can_log epoch config.epoch_num config.t_cm_freq
  let bars ← can_log epoch config.epoch_num config.t_precision_bar_freq
  let roc ← can_log epoch config.epoch_num config.t_roc_auc_freq
  return ⟨cm, bars, roc⟩

/-- Metrics holder `M` produced by the training loop: the fields read by the
renderers (`cm`, `TPR`, `PPV`, `F1`, `pred_list`, `lbl_list`, `prob_list`).
Confusion-matrix entries and probabilities are modelled as exact rationals,
label and prediction sequences as class indices. -/
structure Metrics where
  cm : List (List ℚ)
  TPR : List ℚ
  PPV : List ℚ
  F1 : List ℚ
  pred_list : List Nat
  lbl_list : List Nat
  prob_list : List ℚ
deriving DecidableEq

/-- Numpy float value where a division can produce a non-finite result. -/
inductive NpFloat where
  | num (q : ℚ)
  | nan
  | inf
  | ninf
deriving DecidableEq

/-- Numpy float division of finite operands: division by zero yields
`nan` (0/0), `inf` or `ninf` rather than raising. -/
def npDiv (a b : ℚ) : NpFloat :=
  if b = 0 then
    if a = 0 then NpFloat.nan
    else if 0 < a then NpFloat.inf
    else NpFloat.ninf
  else NpFloat.num (a / b)

/-- Largest finite IEEE-754 double, the value `np.nan_to_num` substitutes
for `inf`. -/
def maxFloat : ℚ := 2 ^ 1024 - 2 ^ 971

/-- Embedding of `np.nan_to_num` (line 111): `nan` becomes `0`, infinities
become the extreme finite doubles, finite values are unchanged. -/
def nan_to_num : NpFloat → ℚ
  | NpFloat.num q => q
  | NpFloat.nan => 0
  | NpFloat.inf => maxFloat
  | NpFloat.ninf => -maxFloat

/-- Embedding of `.astype('int')` on a float cell (line 112): truncation
toward zero. -/
def truncToInt (q : ℚ) : ℤ :=
  if 0 ≤ q then ⌊q⌋ else ⌈q⌉

/-- One row of the normalization of `log_conf_matrix` (lines 110-112):
`cm.astype('float')*10 / cm.sum(axis=1)[:, np.newaxis]`, then
`np.nan_to_num`, then `.astype('int')`. -/
def norm_row (row : List ℚ) : List ℤ :=
  let s := row.sum
  row.map (fun c => truncToInt (nan_to_num (npDiv (c * 10) s)))

/-- Embedding of the `normalize` branch of `log_conf_matrix`
(lines 109-112) over the whole matrix. -/
def normalize_cm (cm : List (List ℚ)) : List (List ℤ) :=
  cm.map norm_row

/-- Embedding of `log_conf_matrix` (lines 107-139) as a state-passing
function: it returns the metrics holder left behind by the call together
with the cell values it renders. `astype` and `np.nan_to_num(copy=True)`
return fresh arrays, so the local rebinding of `cm` never touches `M.cm`;
the figure-drawing calls read `M.cm` and the local `cm` only. Normalized
integer cells are cast back to `ℚ` purely to give both branches one
type. -/
def log_conf_matrix (M : Metrics) (normalize : Bool) : Metrics × List (List ℚ) :=
  let cm := M.cm
  let cm := if normalize then (normalize_cm cm).map (fun r => r.map (fun z => (z : ℚ))) else cm
  (M, cm)

/-- One rendered bar: center position and height. -/
structure Bar where
  x : ℚ
  height : ℚ
deriving DecidableEq

/-- Group width constants of `log_TPR_PPV_F1_bars` (lines 147-149):
`multiplier = 3`, `total_width = 0.75 * multiplier`,
`el_width = total_width / 3`. -/
def multiplier : ℚ := 3

def total_width : ℚ := 3 / 4 * multiplier

def el_width : ℚ := total_width / 3

/-- Embedding of `np.arange(0, len(classes) * multiplier, multiplier)`
(line 150). -/
def bar_positions (n : Nat) : List ℚ :=
  (List.range n).map (fun i : Nat => multiplier * (i : ℚ))

/-- Embedding of one `ax.bar(x + off, heights, ...)` call: matplotlib
raises when the position and height arrays have different lengths
(`none`), otherwise produces one bar per class. -/
def ax_bar (xs : List ℚ) (off : ℚ) (hs : List ℚ) : Option (List Bar) :=
  if xs.length = hs.length then
    some (List.zipWith (fun x h => Bar.mk (x + off) h) xs hs)
  else none

/-- Embedding of `log_TPR_PPV_F1_bars` (lines 144-173) as a state-passing
function: the metrics holder left behind, and the bars of the three
`ax.bar` calls (lines 153-155) in source order with heights
`M.TPR * 100`, `M.PPV * 100`, `M.F1 * 100`. Numpy `*` allocates new
arrays, so `M` is untouched. -/
def log_TPR_PPV_F1_bars (M : Metrics) (classes : List String) :
    Metrics × Option (List Bar) :=
  let x := bar_positions classes.length
  let bars := do
    let rects_TPR ← ax_bar x (-total_width / 2 + el_width * (1 / 2)) (M.TPR.map (fun v => v * 100))
    let rects_PPV ← ax_bar x (-total_width / 2 + el_width * (3 / 2)) (M.PPV.map (fun v => v * 100))
    let rects_F1 ← ax_bar x (-total_width / 2 + el_width * (5 / 2)) (M.F1.map (fun v => v * 100))
    return rects_TPR ++ rects_PPV ++ rects_F1
  (M, bars)

/-- Embedding of the boolean-mask expression
`M.pred_list[M.lbl_list == i] == M.lbl_list[M.lbl_list == i]`
(line 186): the per-class binary ground-truth array fed to `roc_curve`.
Boolean indexing allocates a new array. -/
def roc_labels (M : Metrics) (i : Nat) : List Bool :=
  (M.pred_list.zip M.lbl_list).filterMap
    (fun pl => if pl.2 = i then some (pl.1 == pl.2) else none)

/-- Embedding of `M.prob_list[M.lbl_list == i]` (line 187): the per-class
score array fed to `roc_curve`. -/
def roc_scores (M : Metrics) (i : Nat) : List ℚ :=
  (M.prob_list.zip M.lbl_list).filterMap
    (fun pl => if pl.2 = i then some pl.1 else none)

/-- Embedding of `log_ROC_AUC` (lines 178-225) as a state-passing function,
parameterized by `interpCurve`, the composite of the library calls
`roc_curve` and `scipy.interp` onto the 100-point grid
`mean_fpr = np.linspace(0, 1, 100)`: given the per-class binary labels and
scores it yields the interpolated true-positive-rate samples (always 100 of
them, one per grid point). The body performs the source's own mutations:
`interp_tpr[0] = 0.0` on each fresh per-class array (line 191), the
pointwise mean `np.mean(interp_tprs, axis=0)` (line 201), and
`mean_tpr[-1] = 1.0` (line 202). Returns the metrics holder left behind
and the mean curve. -/
def log_ROC_AUC (M : Metrics) (classes : List String)
    (interpCurve : List Bool → List ℚ → List ℚ) : Metrics × List ℚ :=
  let interp_tprs := (List.range classes.length).map
    (fun i => (interpCurve (roc_labels M i) (roc_scores M i)).set 0 0)
  let mean_tpr := (List.range 100).map
    (fun k => (interp_tprs.map (fun t => t.getD k 0)).sum / interp_tprs.length)
  (M, mean_tpr.set (100 - 1) 1)

/-! Concrete objects used by the witness theorems. -/

/-- Sample configuration: save path set, 5 epochs, chart frequencies 1, 2, 3. -/
def cfgW : Config :=
  { m_save_path := some "models"
    log_pref := "CNN"
    train_size_per_class := some 100
    test_size_per_class := none
    epoch_num := 5
    t_cm_freq := 1
    t_precision_bar_freq := 2
    t_roc_auc_freq := 3 }

/-- Sample configuration with no model save path. -/
def cfgNoPath : Config :=
  { cfgW with m_save_path := none }

/-- Sample configuration with a single training epoch, all frequencies 1. -/
def cfgOneEpoch : Config :=
  { cfgW with epoch_num := 1, t_cm_freq := 1, t_precision_bar_freq := 1, t_roc_auc_freq := 1 }

/-- Sample model. -/
def netW : Net := ⟨26, 7⟩

/-- Previously stored model distinct from `netW`. -/
def netOld : Net := ⟨26, 3⟩

/-- Checkpoint path `save_model` computes for `cfgW`, `netW`, accuracy
string `0.93`, epoch 4. -/
def pW : String := pathJoin "models" (checkpointFileName cfgW netW "0.93" 4)

/-- Filesystem already holding a file at `pW`. -/
def fsW : FileSystem := [(pW, netOld)]

/-- Sample confusion matrix with one all-zero row (the NaN case). -/
def cmW : List (List ℚ) := [[3, 1], [0, 0]]

/-- Sample metrics holder over two classes. -/
def metricsW : Metrics :=
  { cm := [[3, 1], [0, 2]]
    TPR := [3 / 4, 1]
    PPV := [1, 2 / 3]
    F1 := [6 / 7, 4 / 5]
    pred_list := [0, 0, 1, 0, 1, 1]
    lbl_list := [0, 0, 0, 1, 1, 1]
    prob_list := [9 / 10, 4 / 5, 2 / 5, 3 / 5, 7 / 10, 1 / 2] }

/-- Sample stand-in for the `roc_curve`/`interp` pipeline: a constant
100-point curve. -/
def interpW : List Bool → List ℚ → List ℚ :=
  fun _ _ => List.replicate 100 (1 / 2)

/-! Helper lemmas. -/

/-- Evaluating `can_log` at a positive frequency. -/
theorem can_log_pos (epoch epoch_num f : Nat) (hf : 1 ≤ f) :
    can_log epoch epoch_num f
      = some (decide ((epoch % f = 0 ∧ epoch ≠ 0)
          ∨ (epoch % f ≠ 0 ∧ epoch_num - 1 = epoch))) := by
  have : f ≠ 0 := by omega
  simp [can_log, this]

/-- Entries of a non-negative list with zero sum are all zero. -/
theorem eq_zero_of_sum_eq_zero (l : List ℚ) (h : ∀ c ∈ l, 0 ≤ c) (hs : l.sum = 0) :
    ∀ c ∈ l, c = 0 := by
  induction l with
  | nil => simp
  | cons a t ih =>
    have ha : 0 ≤ a := h a (by simp)
    have ht : ∀ c ∈ t, 0 ≤ c := fun c hc => h c (by simp [hc])
    have hts : 0 ≤ t.sum := List.sum_nonneg ht
    have hsum : a + t.sum = 0 := by simpa using hs
    have ha0 : a = 0 := by linarith
    have hts0 : t.sum = 0 := by linarith
    intro c hc
    rcases List.mem_cons.mp hc with rfl | hc
    · exact ha0
    · exact ih ht hts0 c hc

/-- Sum of pointwise floors is bounded by the sum. -/
theorem sum_map_floor_le (l : List ℚ) :
    (((l.map (fun q => ⌊q⌋)).sum : ℤ) : ℚ) ≤ l.sum := by
  induction l with
  | nil => simp
  | cons a t ih =>
    simp only [List.map_cons, List.sum_cons]
    rw [Int.cast_add]
    exact add_le_add (Int.floor_le a) ih

/-- Scaling distributes over a list sum. -/
theorem sum_map_scale (l : List ℚ) (s : ℚ) :
    (l.map (fun c => c * 10 / s)).sum = l.sum * 10 / s := by
  induction l with
  | nil => simp
  | cons a t ih =>
    simp only [List.map_cons, List.sum_cons, ih]
    ring

/-- Per-row normalization bounds: cells are non-negative, the row sums to
at most 10, and a zero input row sum (the NaN case) yields all zeros. -/
theorem norm_row_bounds (row : List ℚ) (h : ∀ c ∈ row, 0 ≤ c) :
    (∀ x ∈ norm_row row, 0 ≤ x) ∧ (norm_row row).sum ≤ 10
      ∧ (row.sum = 0 → ∀ x ∈ norm_row row, x = 0) := by
  by_cases hs : row.sum = 0
  · have hzero : ∀ c ∈ row, c = 0 := eq_zero_of_sum_eq_zero row h hs
    have hrow : ∀ x ∈ norm_row row, x = 0 := by
      intro x hx
      simp only [norm_row, List.mem_map] at hx
      obtain ⟨c, hc, rfl⟩ := hx
      rw [hzero c hc, hs]
      simp [npDiv, nan_to_num, truncToInt]
    refine ⟨fun x hx => le_of_eq (hrow x hx).symm, ?_, fun _ => hrow⟩
    rw [List.sum_eq_zero hrow]
    norm_num
  · have hpos : 0 < row.sum := lt_of_le_of_ne (List.sum_nonneg h) (Ne.symm hs)
    have hform : norm_row row = (row.map (fun c => c * 10 / row.sum)).map (fun q => ⌊q⌋) := by
      rw [List.map_map]
      refine List.map_congr_left ?_
      intro c hc
      have hc0 : 0 ≤ c := h c hc
      have hq : 0 ≤ c * 10 / row.sum := by positivity
      simp [norm_row, npDiv, hs, nan_to_num, truncToInt, hq]
    constructor
    · intro x hx
      rw [hform] at hx
      simp only [List.mem_map] at hx
      obtain ⟨q, ⟨c, hc, rfl⟩, rfl⟩ := hx
      have hc0 : 0 ≤ c := h c hc
      exact Int.floor_nonneg.mpr (by positivity)
    constructor
    · have hle : (((norm_row row).sum : ℤ) : ℚ) ≤ 10 := by
        rw [hform]
        calc (((row.map (fun c => c * 10 / row.sum)).map (fun q => ⌊q⌋)).sum : ℚ)
            ≤ (row.map (fun c => c * 10 / row.sum)).sum := sum_map_floor_le _
          _ = row.sum * 10 / row.sum := sum_map_scale _ _
          _ = 10 := by field_simp
      exact_mod_cast hle
    · intro h0
      exact absurd h0 hs

/-- Heights of the bars of one `ax.bar` call are exactly the given height
list. -/
theorem map_height_zipWith (xs hs : List ℚ) (off : ℚ) (hl : xs.length = hs.length) :
    (List.zipWith (fun x h => Bar.mk (x + off) h) xs hs).map Bar.height = hs := by
  induction xs generalizing hs with
  | nil =>
    cases hs with
    | nil => rfl
    | cons b u => simp at hl
  | cons a t ih =>
    cases hs with
    | nil => simp at hl
    | cons b u =>
      simp only [List.zipWith_cons_cons, List.map_cons]
      rw [ih u (by simpa using hl)]

/-- Endpoint computation shared by the ROC mean-curve claim: after the
per-class curves have their first sample zeroed, the pointwise mean over
the 100-point grid starts at 0, and the final `mean_tpr[-1] = 1.0`
assignment pins the last sample to 1. -/
theorem mean_set_endpoints (tprs : List (List ℚ)) (h0 : ∀ t ∈ tprs, t.getD 0 0 = 0) :
    (((List.range 100).map (fun k => (tprs.map (fun t => t.getD k 0)).sum
        / (tprs.length : ℚ))).set (100 - 1) 1).length = 100
    ∧ (((List.range 100).map (fun k => (tprs.map (fun t => t.getD k 0)).sum
        / (tprs.length : ℚ))).set (100 - 1) 1).getD 0 0 = 0
    ∧ (((List.range 100).map (fun k => (tprs.map (fun t => t.getD k 0)).sum
        / (tprs.length : ℚ))).set (100 - 1) 1).getD 99 0 = 1 := by
  refine ⟨by simp, ?_, ?_⟩
  · rw [List.getD_eq_getElem _ _ (by simp : (0 : ℕ) < _)]
    rw [List.getElem_set_ne (by norm_num)]
    simp only [List.getElem_map, List.getElem_range]
    have hz : (tprs.map (fun t => t.getD 0 0)).sum = 0 := by
      refine List.sum_eq_zero ?_
      intro x hx
      simp only [List.mem_map] at hx
      obtain ⟨t, ht, rfl⟩ := hx
      exact h0 t ht
    rw [hz, zero_div]
  · rw [List.getD_eq_getElem _ _ (by simp : (99 : ℕ) < _)]
    simp

/-! Claim theorems. -/

/-- C1: for every configured frequency `f` and epoch `e` (all three
frequencies positive, as a zero frequency raises), the dispatcher
`add_logs_to_tensorboard` invokes a chart's renderer if and only if
`(e % f == 0 and e != 0) or (e % f != 0 and e == epoch_num - 1)`. -/
theorem dispatcher_invokes_iff_formula (config : Config) (epoch : Nat)
    (h1 : 1 ≤ config.t_cm_freq) (h2 : 1 ≤ config.t_precision_bar_freq)
    (h3 : 1 ≤ config.t_roc_auc_freq) :
    ∃ r : DispatchResult, add_logs_to_tensorboard config epoch = some r
      ∧ (r.cm_logged = true ↔
          ((epoch % config.t_cm_freq = 0 ∧ epoch ≠ 0)
            ∨ (epoch % config.t_cm_freq ≠ 0 ∧ epoch = config.epoch_num - 1)))
      ∧ (r.bars_logged = true ↔
          ((epoch % config.t_precision_bar_freq = 0 ∧ epoch ≠ 0)
            ∨ (epoch % config.t_precision_bar_freq ≠ 0 ∧ epoch = config.epoch_num - 1)))
      ∧ (r.roc_logged = true ↔
          ((epoch % config.t_roc_auc_freq = 0 ∧ epoch ≠ 0)
            ∨ (epoch % config.t_roc_auc_freq ≠ 0 ∧ epoch = config.epoch_num - 1))) := by
  refine ⟨⟨decide ((epoch % config.t_cm_freq = 0 ∧ epoch ≠ 0)
        ∨ (epoch % config.t_cm_freq ≠ 0 ∧ config.epoch_num - 1 = epoch)),
      decide ((epoch % config.t_precision_bar_freq = 0 ∧ epoch ≠ 0)
        ∨ (epoch % config.t_precision_bar_freq ≠ 0 ∧ config.epoch_num - 1 = epoch)),
      decide ((epoch % config.t_roc_auc_freq = 0 ∧ epoch ≠ 0)
        ∨ (epoch % config.t_roc_auc_freq ≠ 0 ∧ config.epoch_num - 1 = epoch))⟩,
    ?_, ?_, ?_, ?_⟩
  · simp only [add_logs_to_tensorboard, can_log_pos _ _ _ h1, can_log_pos _ _ _ h2,
      can_log_pos _ _ _ h3, Option.bind_some, Option.some_bind]
    rfl
  all_goals
    simp only [decide_eq_true_eq]
    constructor
    · rintro (h | ⟨ha, hb⟩)
      · exact Or.inl h
      · exact Or.inr ⟨ha, hb.symm⟩
    · rintro (h | ⟨ha, hb⟩)
      · exact Or.inl h
      · exact Or.inr ⟨ha, hb.symm⟩

/-- Witness for C1 at `cfgW`, epoch 3. -/
theorem dispatcher_invokes_iff_formula_witness :
    ∃ r : DispatchResult, add_logs_to_tensorboard cfgW 3 = some r
      ∧ (r.cm_logged = true ↔
          ((3 % cfgW.t_cm_freq = 0 ∧ 3 ≠ 0)
            ∨ (3 % cfgW.t_cm_freq ≠ 0 ∧ 3 = cfgW.epoch_num - 1)))
      ∧ (r.bars_logged = true ↔
          ((3 % cfgW.t_precision_bar_freq = 0 ∧ 3 ≠ 0)
            ∨ (3 % cfgW.t_precision_bar_freq ≠ 0 ∧ 3 = cfgW.epoch_num - 1)))
      ∧ (r.roc_logged = true ↔
          ((3 % cfgW.t_roc_auc_freq = 0 ∧ 3 ≠ 0)
            ∨ (3 % cfgW.t_roc_auc_freq ≠ 0 ∧ 3 = cfgW.epoch_num - 1))) :=
  dispatcher_invokes_iff_formula cfgW 3 (by decide) (by decide) (by decide)

/-- C10: the dispatcher's predicate `can_log` evaluates without error
exactly when the frequency is non-zero; at frequency 0 the modulo raises
`ZeroDivisionError`, modelled as `none`. -/
theorem can_log_total_iff_freq_pos (epoch epoch_num f : Nat) :
    (can_log epoch epoch_num f).isSome ↔ 1 ≤ f := by
  rcases Nat.eq_zero_or_pos f with h | h
  · simp [can_log, h]
  · have : f ≠ 0 := by omega
    simp only [can_log, this, if_false, Option.isSome_some, true_iff]
    omega

/-- C2: when a file already exists at the computed checkpoint path,
`save_model` performs no write and leaves the filesystem unchanged. -/
theorem save_model_skips_existing (config : Config) (net : Net) (acc : String)
    (epoch : Nat) (fs : FileSystem) (dir p : String)
    (hdir : config.m_save_path = some dir)
    (hp : p = pathJoin dir (checkpointFileName config net acc epoch))
    (hex : pathExists fs p = true) :
    save_model config net acc epoch fs = fs := by
  subst hp
  simp [save_model, hdir, hex]

/-- Witness for C2: `fsW` already holds a file at `pW`. -/
theorem save_model_skips_existing_witness :
    cfgW.m_save_path = some "models" ∧ pathExists fsW pW = true
      ∧ save_model cfgW netW "0.93" 4 fsW = fsW :=
  ⟨rfl, rfl, save_model_skips_existing cfgW netW "0.93" 4 fsW "models" pW rfl rfl rfl⟩

/-- C9: when `config.args.m_save_path` is `None`, `save_model` returns
immediately and the filesystem is unchanged. -/
theorem save_model_none_path_noop (config : Config) (net : Net) (acc : String)
    (epoch : Nat) (fs : FileSystem)
    (h : config.m_save_path = none) :
    save_model config net acc epoch fs = fs := by
  simp [save_model, h]

/-- Witness for C9 at `cfgNoPath`. -/
theorem save_model_none_path_noop_witness :
    cfgNoPath.m_save_path = none ∧ save_model cfgNoPath netW "0.93" 4 fsW = fsW :=
  ⟨rfl, save_model_none_path_noop cfgNoPath netW "0.93" 4 fsW rfl⟩

/-- C4: with normalization enabled and a confusion matrix of non-negative
entries, the normalized matrix of `log_conf_matrix` has non-negative
integer cells, each row sums to at most 10, and the NaNs of a zero row sum
become 0. -/
theorem normalize_cm_cells_nonneg_rowsum_le_ten (cm : List (List ℚ))
    (hpos : ∀ row ∈ cm, ∀ c ∈ row, 0 ≤ c) :
    (∀ nrow ∈ normalize_cm cm, (∀ x ∈ nrow, 0 ≤ x) ∧ nrow.sum ≤ 10)
      ∧ (∀ row ∈ cm, row.sum = 0 → ∀ x ∈ norm_row row, x = 0) := by
  constructor
  · intro nrow hn
    simp only [normalize_cm, List.mem_map] at hn
    obtain ⟨row, hrow, rfl⟩ := hn
    obtain ⟨ha, hb, _⟩ := norm_row_bounds row (hpos row hrow)
    exact ⟨ha, hb⟩
  · intro row hrow h0
    exact (norm_row_bounds row (hpos row hrow)).2.2 h0

/-- Witness for C4 at `cmW`, whose second row is all zeros. -/
theorem normalize_cm_cells_nonneg_rowsum_le_ten_witness :
    (∀ row ∈ cmW, ∀ c ∈ row, 0 ≤ c)
      ∧ ((∀ nrow ∈ normalize_cm cmW, (∀ x ∈ nrow, 0 ≤ x) ∧ nrow.sum ≤ 10)
        ∧ (∀ row ∈ cmW, row.sum = 0 → ∀ x ∈ norm_row row, x = 0)) :=
  ⟨by decide, normalize_cm_cells_nonneg_rowsum_le_ten cmW (by decide)⟩

/-- C3: the checkpoint file name built by `save_model` is exactly
`<pref>_acc[<acc>]_e[<e>]_c[<num_classes>]_tr_s[<n|All>]_t_s[<n|All>].model`,
with `All` standing for an unset per-class size. -/
theorem checkpoint_name_matches_spec (config : Config) (net : Net)
    (acc : String) (epoch : Nat) :
    checkpointFileName config net acc epoch
      = specCheckpointFileName config.log_pref acc epoch net.num_classes
          config.train_size_per_class config.test_size_per_class := by
  cases htr : config.train_size_per_class <;> cases hte : config.test_size_per_class <;>
    simp [checkpointFileName, specCheckpointFileName, sizeField, htr, hte,
      String.append_assoc]

/-- C5: for metric vectors of the class-list length, the bar-chart renderer
produces exactly `3 * n` bars, whose heights are `TPR * 100`, `PPV * 100`
and `F1 * 100`, in that order. -/
theorem bars_three_per_class_heights (M : Metrics) (classes : List String)
    (h1 : M.TPR.length = classes.length) (h2 : M.PPV.length = classes.length)
    (h3 : M.F1.length = classes.length) :
    ∃ bars, (log_TPR_PPV_F1_bars M classes).2 = some bars
      ∧ bars.length = 3 * classes.length
      ∧ bars.map Bar.height
          = M.TPR.map (fun v => v * 100) ++ M.PPV.map (fun v => v * 100)
            ++ M.F1.map (fun v => v * 100) := by
  have hx : (bar_positions classes.length).length = classes.length := by
    simp only [bar_positions, List.length_map, List.length_range]
  have l1 : (bar_positions classes.length).length = (M.TPR.map (fun v => v * 100)).length := by
    simp [hx, h1]
  have l2 : (bar_positions classes.length).length = (M.PPV.map (fun v => v * 100)).length := by
    simp [hx, h2]
  have l3 : (bar_positions classes.length).length = (M.F1.map (fun v => v * 100)).length := by
    simp [hx, h3]
  have e1 : ax_bar (bar_positions classes.length) (-total_width / 2 + el_width * (1 / 2))
      (M.TPR.map (fun v => v * 100))
      = some (List.zipWith (fun x h => Bar.mk (x + (-total_width / 2 + el_width * (1 / 2))) h)
          (bar_positions classes.length) (M.TPR.map (fun v => v * 100))) := by
    simp [ax_bar, l1]
  have e2 : ax_bar (bar_positions classes.length) (-total_width / 2 + el_width * (3 / 2))
      (M.PPV.map (fun v => v * 100))
      = some (List.zipWith (fun x h => Bar.mk (x + (-total_width / 2 + el_width * (3 / 2))) h)
          (bar_positions classes.length) (M.PPV.map (fun v => v * 100))) := by
    simp [ax_bar, l2]
  have e3 : ax_bar (bar_positions classes.length) (-total_width / 2 + el_width * (5 / 2))
      (M.F1.map (fun v => v * 100))
      = some (List.zipWith (fun x h => Bar.mk (x + (-total_width / 2 + el_width * (5 / 2))) h)
          (bar_positions classes.length) (M.F1.map (fun v => v * 100))) := by
    simp [ax_bar, l3]
  have heq : (log_TPR_PPV_F1_bars M classes).2
      = some
        (List.zipWith (fun x h => Bar.mk (x + (-total_width / 2 + el_width * (1 / 2))) h)
            (bar_positions classes.length) (M.TPR.map (fun v => v * 100))
          ++ List.zipWith (fun x h => Bar.mk (x + (-total_width / 2 + el_width * (3 / 2))) h)
            (bar_positions classes.length) (M.PPV.map (fun v => v * 100))
          ++ List.zipWith (fun x h => Bar.mk (x + (-total_width / 2 + el_width * (5 / 2))) h)
            (bar_positions classes.length) (M.F1.map (fun v => v * 100))) := by
    simp only [log_TPR_PPV_F1_bars, e1, e2, e3, Option.bind_some, Option.some_bind]
    rfl
  refine ⟨_, heq, ?_, ?_⟩
  · simp only [List.length_append, List.length_zipWith, hx, List.length_map, h1, h2, h3,
      min_self]
    ring
  · simp only [List.map_append]
    rw [map_height_zipWith _ _ _ l1, map_height_zipWith _ _ _ l2, map_height_zipWith _ _ _ l3]

/-- Witness for C5 at `metricsW` over two classes. -/
theorem bars_three_per_class_heights_witness :
    ∃ bars, (log_TPR_PPV_F1_bars metricsW ["a", "b"]).2 = some bars
      ∧ bars.length = 3 * (["a", "b"] : List String).length
      ∧ bars.map Bar.height
          = metricsW.TPR.map (fun v => v * 100) ++ metricsW.PPV.map (fun v => v * 100)
            ++ metricsW.F1.map (fun v => v * 100) :=
  bars_three_per_class_heights metricsW ["a", "b"] (by decide) (by decide) (by decide)

/-- C6: for class count at least 1 (and the library interpolation always
producing the 100 grid samples), the mean true-positive-rate curve of
`log_ROC_AUC` has first value 0.0 and last value 1.0 after
interpolation. -/
theorem roc_mean_tpr_pinned_endpoints (M : Metrics) (classes : List String)
    (interpCurve : List Bool → List ℚ → List ℚ)
    (hn : 1 ≤ classes.length)
    (hlen : ∀ bs qs, (interpCurve bs qs).length = 100) :
    ((log_ROC_AUC M classes interpCurve).2).length = 100
      ∧ ((log_ROC_AUC M classes interpCurve).2).getD 0 0 = 0
      ∧ ((log_ROC_AUC M classes interpCurve).2).getD 99 0 = 1 := by
  have hne : classes.length ≠ 0 := by omega
  have h0 : ∀ t ∈ (List.range classes.length).map
      (fun i => (interpCurve (roc_labels M i) (roc_scores M i)).set 0 0),
      t.getD 0 0 = 0 := by
    intro t ht
    simp only [List.mem_map] at ht
    obtain ⟨i, _, rfl⟩ := ht
    have hl : 0 < ((interpCurve (roc_labels M i) (roc_scores M i)).set 0 0).length := by
      simp [hlen]
    rw [List.getD_eq_getElem _ _ hl]
    simp
  exact mean_set_endpoints _ h0

/-- Witness for C6 at `metricsW`, two classes, and the constant
interpolation stand-in `interpW`. -/
theorem roc_mean_tpr_pinned_endpoints_witness :
    ((log_ROC_AUC metricsW ["a", "b"] interpW).2).length = 100
      ∧ ((log_ROC_AUC metricsW ["a", "b"] interpW).2).getD 0 0 = 0
      ∧ ((log_ROC_AUC metricsW ["a", "b"] interpW).2).getD 99 0 = 1 :=
  roc_mean_tpr_pinned_endpoints metricsW ["a", "b"] interpW (by decide)
    (fun bs qs => by simp [interpW])

/-- C7 as stated is false: with `epoch_num = 1` the final epoch is epoch 0,
and there `can_log` is false for every frequency, so no renderer is
invoked. -/
theorem final_epoch_unconditional_cex :
    cfgOneEpoch.epoch_num - 1 = 0
      ∧ cfgOneEpoch.t_cm_freq = 1 ∧ cfgOneEpoch.t_precision_bar_freq = 1
      ∧ cfgOneEpoch.t_roc_auc_freq = 1
      ∧ add_logs_to_tensorboard cfgOneEpoch 0 = some ⟨false, false, false⟩ :=
  ⟨rfl, rfl, rfl, rfl, rfl⟩

/-- C7 amended: for positive frequencies and at least two epochs, the
dispatcher invokes all three renderers on the final epoch
`epoch_num - 1`. -/
theorem final_epoch_logs_all_when_multi_epoch (config : Config) (epoch : Nat)
    (h1 : 1 ≤ config.t_cm_freq) (h2 : 1 ≤ config.t_precision_bar_freq)
    (h3 : 1 ≤ config.t_roc_auc_freq) (hN : 2 ≤ config.epoch_num)
    (hE : epoch = config.epoch_num - 1) :
    add_logs_to_tensorboard config epoch = some ⟨true, true, true⟩ := by
  have hne : epoch ≠ 0 := by omega
  have hcl : ∀ f, 1 ≤ f → can_log epoch config.epoch_num f = some true := by
    intro f hf
    rw [can_log_pos _ _ _ hf]
    congr 1
    simp only [decide_eq_true_eq]
    by_cases hmod : epoch % f = 0
    · exact Or.inl ⟨hmod, hne⟩
    · exact Or.inr ⟨hmod, hE.symm⟩
  simp [add_logs_to_tensorboard, hcl _ h1, hcl _ h2, hcl _ h3]

/-- Witness for the amended C7 at `cfgW` (5 epochs), final epoch 4. -/
theorem final_epoch_logs_all_when_multi_epoch_witness :
    add_logs_to_tensorboard cfgW 4 = some ⟨true, true, true⟩ :=
  final_epoch_logs_all_when_multi_epoch cfgW 4 (by decide) (by decide) (by decide)
    (by decide) (by decide)

/-- C8: each renderer leaves every field of the metrics holder unchanged;
the local array copies (`astype`, `np.nan_to_num(copy=True)`, numpy
arithmetic and boolean indexing, the fresh `interp` outputs) never write
back into `M`. -/
theorem renderers_preserve_metrics (M : Metrics) (classes : List String)
    (normalize : Bool) (interpCurve : List Bool → List ℚ → List ℚ) :
    (log_conf_matrix M normalize).1 = M
      ∧ (log_TPR_PPV_F1_bars M classes).1 = M
      ∧ (log_ROC_AUC M classes interpCurve).1 = M :=
  ⟨rfl, rfl, rfl⟩

end AlphabetRecogniser
